import Mathlib

/-
Verification development for the GridShellLearn repository.

The single source file, `LacconianOptimizer.py`, is a gradient-descent driver
for structural mesh optimization.  Its collaborators (the structural-loss
evaluator `LacconianCalculus`, the regularizers `LaplacianSmoothing` and
`NormalConsistency`, the `Mesh` class and the `save_mesh` writer) are not part
of the source under verification: they are kept opaque, as parameters of the
model, except where the specification pins down their interface behaviour
(those definitions carry a "Modelled from the spec" doc comment).

Scalar tensor values are modelled by the type `FV`: a rational number, plus
the three IEEE special values NaN, +inf and -inf, with the comparison and
arithmetic rules the driver relies on (in particular `NaN < x` is false for
every `x`).  Python locals that may be read before assignment are modelled as
`Option` values, and reading an unassigned one produces a
`RunError.unboundLocal` (Python's UnboundLocalError / NameError); `%` by zero
produces `RunError.zeroDivision` (Python's ZeroDivisionError).
-/

namespace GridShell

/-- Scalar value of a 0-dimensional tensor: a rational, or NaN, or plus or
minus infinity. -/
inductive FV where
  | nan : FV
  | inf : FV
  | ninf : FV
  | fin : ℚ → FV
deriving DecidableEq

/-- IEEE-style strict less-than on scalar values: any comparison with NaN is
false; -inf is below everything else; +inf is above everything else. -/
def fvLt : FV → FV → Bool
  | FV.nan, _ => false
  | _, FV.nan => false
  | FV.inf, _ => false
  | FV.ninf, FV.ninf => false
  | FV.ninf, _ => true
  | FV.fin _, FV.inf => true
  | FV.fin _, FV.ninf => false
  | FV.fin a, FV.fin b => decide (a < b)

/-- Non-strict comparison used to state that the best-loss sequence is
non-increasing. -/
def fvLe (a b : FV) : Prop := a = b ∨ fvLt a b = true

/-- Rational addition, written through `Rat.divInt` so that concrete values
evaluate by kernel reduction; `qAdd_eq` proves it is ordinary addition on ℚ. -/
def qAdd (a b : ℚ) : ℚ := Rat.divInt (a.num * b.den + b.num * a.den) (a.den * b.den)

/-- Rational multiplication through `Rat.divInt`; `qMul_eq` proves it is
ordinary multiplication on ℚ. -/
def qMul (a b : ℚ) : ℚ := Rat.divInt (a.num * b.num) (a.den * b.den)

/-- Rational subtraction through `Rat.divInt`; `qSub_eq` proves it is
ordinary subtraction on ℚ. -/
def qSub (a b : ℚ) : ℚ := Rat.divInt (a.num * b.den - b.num * a.den) (a.den * b.den)

/-- Rational division through `Rat.divInt`; `qDiv_eq` proves it is ordinary
division on ℚ (with the junk value 0 at denominator 0, as in Mathlib). -/
def qDiv (a b : ℚ) : ℚ := Rat.divInt (a.num * b.den) (a.den * b.num)

/-- IEEE-style addition: NaN propagates, inf + (-inf) is NaN. -/
def fvAdd : FV → FV → FV
  | FV.nan, _ => FV.nan
  | _, FV.nan => FV.nan
  | FV.inf, FV.ninf => FV.nan
  | FV.ninf, FV.inf => FV.nan
  | FV.inf, _ => FV.inf
  | _, FV.inf => FV.inf
  | FV.ninf, _ => FV.ninf
  | _, FV.ninf => FV.ninf
  | FV.fin a, FV.fin b => FV.fin (qAdd a b)

/-- Sign dispatch for products with an infinity: 0 * inf is NaN. -/
def fvSignMul (a : ℚ) (pos neg : FV) : FV :=
  if a = 0 then FV.nan else if 0 < a then pos else neg

/-- IEEE-style multiplication. -/
def fvMul : FV → FV → FV
  | FV.nan, _ => FV.nan
  | _, FV.nan => FV.nan
  | FV.inf, FV.inf => FV.inf
  | FV.inf, FV.ninf => FV.ninf
  | FV.ninf, FV.inf => FV.ninf
  | FV.ninf, FV.ninf => FV.inf
  | FV.inf, FV.fin b => fvSignMul b FV.inf FV.ninf
  | FV.ninf, FV.fin b => fvSignMul b FV.ninf FV.inf
  | FV.fin a, FV.inf => fvSignMul a FV.inf FV.ninf
  | FV.fin a, FV.ninf => fvSignMul a FV.ninf FV.inf
  | FV.fin a, FV.fin b => FV.fin (qMul a b)

/-- IEEE-style division (there is no signed zero in the model, so a finite
value divided by an infinity is plain 0, and division by the rational 0
behaves like division by +0). -/
def fvDiv : FV → FV → FV
  | FV.nan, _ => FV.nan
  | _, FV.nan => FV.nan
  | FV.inf, FV.inf => FV.nan
  | FV.inf, FV.ninf => FV.nan
  | FV.ninf, FV.inf => FV.nan
  | FV.ninf, FV.ninf => FV.nan
  | FV.inf, FV.fin b => if b < 0 then FV.ninf else FV.inf
  | FV.ninf, FV.fin b => if b < 0 then FV.inf else FV.ninf
  | FV.fin _, FV.inf => FV.fin 0
  | FV.fin _, FV.ninf => FV.fin 0
  | FV.fin a, FV.fin b =>
      if b = 0 then (if a = 0 then FV.nan else if 0 < a then FV.inf else FV.ninf)
      else FV.fin (qDiv a b)

/-- Python's two-argument `max(a, b)`: starts from `a` and replaces it by `b`
only when `b > a`; in particular `max(NaN, b) = NaN`. -/
def fvPymax (a b : FV) : FV := if fvLt a b then b else a

/-- The calibration floor `eps = 1e-3` (source line 20); `epsQ_eq` proves it
equals 1/1000. -/
def epsQ : ℚ := mkRat 1 1000

/-- A 3D vector of rational coordinates (one row of a `(k, 3)` tensor). -/
abbrev Vec3 : Type := ℚ × ℚ × ℚ

/-- Componentwise vector addition. -/
def v3add (a b : Vec3) : Vec3 := (qAdd a.1 b.1, qAdd a.2.1 b.2.1, qAdd a.2.2 b.2.2)

/-- Componentwise vector subtraction. -/
def v3sub (a b : Vec3) : Vec3 := (qSub a.1 b.1, qSub a.2.1 b.2.1, qSub a.2.2 b.2.2)

/-- Scalar times vector. -/
def v3smul (c : ℚ) (a : Vec3) : Vec3 := (qMul c a.1, qMul c a.2.1, qMul c a.2.2)

/-- The zero vector. -/
def v3zero : Vec3 := (0, 0, 0)

/-- Vertex positions of a mesh with `n` vertices (the only part of the
external `Mesh` object the driver reads directly). -/
abbrev MeshV (n : Nat) : Type := Fin n → Vec3

/-- Maximum of a list of rationals (`torch.max` over a non-empty tensor);
0 on the empty list, which `torch.max` would reject. -/
def listMax : List ℚ → ℚ
  | [] => 0
  | h :: t => t.foldl max h

/-- The opaque collaborators of the driver, for a mesh with `n` vertices of
which `m` are non-constrained (free).  `struct`, `lap`, `nc`, `varFA` model
the differentiable scalar evaluators; `deformNorm` models the per-vertex
Euclidean norm of the first three components of
`lacconian_calculus.vertex_deformations` as produced by evaluating a given
mesh; `vnorm` models the per-row Euclidean norm used for the offset tensor
(kept abstract because a Euclidean norm of a rational vector need not be
rational); `grad` is the reverse-mode-differentiation oracle giving the
gradient of the total objective with respect to the displacement parameter;
`free i = some j` means vertex `i` is row `j` of the compacted free-vertex
tensors, `free i = none` means vertex `i` is constrained; `d0` is the seeded
initial displacement tensor (covering all four `init_mode` policies). -/
structure Collab (n m : Nat) where
  initialMesh : MeshV n
  free : Fin n → Option (Fin m)
  struct : MeshV n → FV
  deformNorm : MeshV n → Fin n → ℚ
  vnorm : Vec3 → ℚ
  lap : MeshV n → FV
  nc : MeshV n → FV
  varFA : MeshV n → FV
  grad : (Fin m → Vec3) → Fin m → Vec3
  d0 : Fin m → Vec3

/-- The run configuration consumed by `__init__` and `start`. -/
structure Config where
  lr : ℚ
  momentum : ℚ
  withLap : Bool
  withNC : Bool
  withVar : Bool
  lapPerc : ℚ
  ncPerc : ℚ
  varPerc : ℚ
  nIter : Nat
  save : Bool
  saveInterval : Nat
  displayInterval : Int
  saveLabel : String
  savePre : String
  wandbOn : Bool

/-- Initial structural loss `loss_0` evaluated on the unmodified base mesh
(source line 19). -/
def loss0 (C : Collab n m) : FV := C.struct C.initialMesh

/-- Laplacian-smoothing scaling factor (source lines 26-32): 1 when the
percentage is the sentinel -1, otherwise
`perc * loss_0 / max(term_0, eps)` with Python's `max`. -/
def laplsmoothScalingFactor (C : Collab n m) (cfg : Config) : FV :=
  if cfg.lapPerc = -1 then FV.fin 1
  else fvDiv (fvMul (FV.fin cfg.lapPerc) (loss0 C))
    (fvPymax (C.lap C.initialMesh) (FV.fin epsQ))

/-- Normal-consistency scaling factor (source lines 35-41). -/
def normconsScalingFactor (C : Collab n m) (cfg : Config) : FV :=
  if cfg.ncPerc = -1 then FV.fin 1
  else fvDiv (fvMul (FV.fin cfg.ncPerc) (loss0 C))
    (fvPymax (C.nc C.initialMesh) (FV.fin epsQ))

/-- Face-area-variance scaling factor (source lines 44-49). -/
def varareasScalingFactor (C : Collab n m) (cfg : Config) : FV :=
  if cfg.varPerc = -1 then FV.fin 1
  else fvDiv (fvMul (FV.fin cfg.varPerc) (loss0 C))
    (fvPymax (C.varFA C.initialMesh) (FV.fin epsQ))

/-- The driver's mutable state across iterations of `start`: the optimizer
parameter and its momentum buffer, the structural evaluator's last computed
deformation norms, the calibrated factors (object attributes, immutable in
the source after `__init__`), the Python local `quality`, and the best-state
snapshot.  `Option` fields model Python locals that may still be unassigned. -/
structure DriverState (n m : Nat) where
  initialMesh : MeshV n
  displacements : Fin m → Vec3
  velocity : Fin m → Vec3
  lastDeform : Fin n → ℚ
  lapFactor : FV
  ncFactor : FV
  varFactor : FV
  qualityVar : Option (Fin n → ℚ)
  bestLoss : FV
  bestIteration : Option Nat
  bestStructural : Option FV
  bestMaxDisp : Option ℚ
  bestMaxDeform : Option ℚ
  bestLS : Option FV
  bestNC : Option FV
  bestVar : Option FV
  bestMesh : Option (MeshV n)
  bestQuality : Option (Fin n → ℚ)

/-- Runtime failures the driver can raise: Python's
UnboundLocalError/NameError on reading a never-assigned local, and
ZeroDivisionError from `%` with a zero modulus. -/
inductive RunError where
  | unboundLocal : String → RunError
  | zeroDivision : RunError
deriving DecidableEq

/-- A mesh file written through `save_mesh`.

Modelled from the spec: the external mesh-I/O collaborator exposes
`write(mesh, filename, per_vertex_quality)`; the model records each call as
an emitted event carrying exactly those three arguments. -/
structure Event (n : Nat) where
  filename : String
  mesh : MeshV n
  quality : Fin n → ℚ

/-- Python local-variable names that the driver can read before assignment. -/
def nmQuality : String := "quality"

/-- Name of the `best_iteration` local. -/
def nmBestIteration : String := "best_iteration"

/-- Name of the `best_mesh` local. -/
def nmBestMesh : String := "best_mesh"

/-- Name of the `best_quality` local. -/
def nmBestQuality : String := "best_quality"

/-- Name of the `structural_loss_at_best_iteration` local. -/
def nmStructuralAtBest : String := "structural_loss_at_best_iteration"

/-- Name of the `max_displacement_norm_at_best_iteration` local. -/
def nmMaxDispAtBest : String := "max_displacement_norm_at_best_iteration"

/-- Name of the `max_load_deformation_norm_at_best_iteration` local. -/
def nmMaxDeformAtBest : String := "max_load_deformation_norm_at_best_iteration"

/-- Name of the `laplacian_smoothing_at_best_iteration` local. -/
def nmLapAtBest : String := "laplacian_smoothing_at_best_iteration"

/-- Name of the `normal_consistency_at_best_iteration` local. -/
def nmNCAtBest : String := "normal_consistency_at_best_iteration"

/-- Name of the `var_face_areas_at_best_iteration` local. -/
def nmVarAtBest : String := "var_face_areas_at_best_iteration"

/-- Periodic checkpoint filename (source line 99):
`save_prefix + save_label + '_' + str(current_iteration) + '.ply'`. -/
def fileName (cfg : Config) (k : Nat) : String :=
  cfg.savePre ++ cfg.saveLabel ++ "_" ++ Nat.repr k ++ ".ply"

/-- Final best-mesh filename (source line 188):
`save_prefix + '[BEST]' + save_label + '_' + str(best_iteration) + '.ply'`. -/
def bestFileName (cfg : Config) (b : Nat) : String :=
  cfg.savePre ++ "[BEST]" ++ cfg.saveLabel ++ "_" ++ Nat.repr b ++ ".ply"

/-- The offset tensor of source lines 88-89: zeros everywhere, then row `j`
of the displacement parameter written at the `j`-th non-constrained vertex. -/
def buildOffset (free : Fin n → Option (Fin m)) (d : Fin m → Vec3) : Fin n → Vec3 :=
  fun i => match free i with
    | some j => d j
    | none => v3zero

/-- The candidate mesh of source line 90.

Modelled from the spec: `Mesh.update_verts` lives in the repository's
`models/layers/mesh.py`, which is not part of the given source; the spec
states that an updated mesh is derived "by adding a per-vertex offset to the
base positions" and "does not mutate the base". -/
def updateVerts (base : MeshV n) (off : Fin n → Vec3) : MeshV n :=
  fun i => v3add (base i) (off i)

/-- The candidate mesh built by one iteration from the current state. -/
def candMesh (C : Collab n m) (st : DriverState n m) : MeshV n :=
  updateVerts st.initialMesh (buildOffset C.free st.displacements)

/-- The structural loss of the current iteration (source line 107). -/
def structOf (C : Collab n m) (st : DriverState n m) : FV :=
  C.struct (candMesh C st)

/-- The laplacian-smoothing value of the current iteration, present exactly
when the regularizer is enabled (source lines 116-117). -/
def lapOf (C : Collab n m) (cfg : Config) (st : DriverState n m) : Option FV :=
  if cfg.withLap = true then some (C.lap (candMesh C st)) else none

/-- The normal-consistency value of the current iteration (source lines
122-123). -/
def ncOf (C : Collab n m) (cfg : Config) (st : DriverState n m) : Option FV :=
  if cfg.withNC = true then some (C.nc (candMesh C st)) else none

/-- The face-area-variance value of the current iteration (source lines
128-129). -/
def varOf (C : Collab n m) (cfg : Config) (st : DriverState n m) : Option FV :=
  if cfg.withVar = true then some (C.varFA (candMesh C st)) else none

/-- The value `max_displacement_norm` of source line 93. -/
def maxDispOf (C : Collab n m) (st : DriverState n m) : ℚ :=
  listMax (List.ofFn fun i => C.vnorm (buildOffset C.free st.displacements i))

/-- The value `max_deformation_norm` of source line 112 (norms after evaluating the
current candidate mesh). -/
def maxDeformOf (C : Collab n m) (st : DriverState n m) : ℚ :=
  listMax (List.ofFn fun i => C.deformNorm (candMesh C st) i)

/-- One `loss += factor * term` contribution, skipped when the regularizer is
absent. -/
def addTerm (acc factor : FV) (t : Option FV) : FV :=
  match t with
  | some v => fvAdd acc (fvMul factor v)
  | none => acc

/-- The total objective assembled by source lines 104-131: `loss = 0`, plus
the structural loss, plus `factor * term` for each enabled regularizer. -/
def iterLoss (C : Collab n m) (cfg : Config) (st : DriverState n m) : FV :=
  addTerm (addTerm (addTerm (fvAdd (FV.fin 0) (structOf C st))
    st.lapFactor (lapOf C cfg st)) st.ncFactor (ncOf C cfg st))
    st.varFactor (varOf C cfg st)

/-- Keep a newly computed per-iteration value if present, otherwise keep the
old one (a Python local assignment guarded by an `if`). -/
def optOr (a b : Option α) : Option α :=
  match a with
  | some v => some v
  | none => b

/-- The wandb per-run summary writes of source lines 162-168: each line reads
a local that is only assigned inside the best-update (and, for the three
regularizer values, only when that regularizer is enabled); reading an
unassigned one raises. -/
def wandbCheck (st : DriverState n m) : Except RunError Unit :=
  match st.bestIteration with
  | none => Except.error (RunError.unboundLocal nmBestIteration)
  | some _ =>
  match st.bestStructural with
  | none => Except.error (RunError.unboundLocal nmStructuralAtBest)
  | some _ =>
  match st.bestMaxDisp with
  | none => Except.error (RunError.unboundLocal nmMaxDispAtBest)
  | some _ =>
  match st.bestMaxDeform with
  | none => Except.error (RunError.unboundLocal nmMaxDeformAtBest)
  | some _ =>
  match st.bestLS with
  | none => Except.error (RunError.unboundLocal nmLapAtBest)
  | some _ =>
  match st.bestNC with
  | none => Except.error (RunError.unboundLocal nmNCAtBest)
  | some _ =>
  match st.bestVar with
  | none => Except.error (RunError.unboundLocal nmVarAtBest)
  | some _ => Except.ok ()

/-- The Python local `quality` after the checkpoint block of iteration `k`
(source line 100): refreshed from the structural evaluator's current
deformation norms on checkpoint iterations (when saving is enabled),
otherwise whatever it was before. -/
def newQuality (cfg : Config) (k : Nat) (st : DriverState n m) : Option (Fin n → ℚ) :=
  if k % cfg.saveInterval = 0 ∧ cfg.save = true then some st.lastDeform else st.qualityVar

/-- The files written by the checkpoint block of iteration `k` (source lines
97-101): the candidate mesh, under the periodic filename, with the quality
field read from the deformation norms of the last structural evaluation. -/
def ckptEvents (C : Collab n m) (cfg : Config) (k : Nat) (st : DriverState n m) :
    List (Event n) :=
  if k % cfg.saveInterval = 0 ∧ cfg.save = true then
    [Event.mk (fileName cfg k) (candMesh C st) st.lastDeform] else []

/-- Tail of one iteration (source lines 159-177): the optional wandb summary
writes, then one SGD-with-momentum step `v := momentum * v + grad;
param := param - lr * v` (torch.optim.SGD with dampening 0; the buffer starts
at 0, so the first step's `v` is exactly `grad`), then
`clean_attributes` (which releases autodiff state and has no effect on the
values the model tracks).

Modelled from the spec: `torch.optim.SGD` is external; the update rule is the
one the spec states for it, with the gradient supplied by the `grad` oracle. -/
def finishIter (C : Collab n m) (cfg : Config) (st1 : DriverState n m)
    (qualityVar : Option (Fin n → ℚ)) (newDeform : Fin n → ℚ)
    (evs : List (Event n)) : Except RunError (DriverState n m × List (Event n)) :=
  match (if cfg.wandbOn = true then wandbCheck st1 else Except.ok ()) with
  | Except.error e => Except.error e
  | Except.ok _ =>
    let v2 := fun i => v3add (v3smul cfg.momentum (st1.velocity i)) (C.grad st1.displacements i)
    let d2 := fun i => v3sub (st1.displacements i) (v3smul cfg.lr (v2 i))
    let st2 :=
      { st1 with
        displacements := d2
        velocity := v2
        lastDeform := newDeform
        qualityVar := qualityVar }
    Except.ok (st2, evs)

/-- One iteration of the `start` loop (source lines 78-184), at iteration
index `k`.  In order: build the offset and the candidate mesh; possibly write
a periodic checkpoint whose quality field is the norm of the structural
evaluator's current `vertex_deformations` (the ones from the previous
evaluation); evaluate the structural loss (which refreshes the deformation
field) and the enabled regularizers and assemble the total objective; the
strict `<` best-update; the optional wandb summary writes; the SGD step. -/
def iterStep (C : Collab n m) (cfg : Config) (k : Nat) (st : DriverState n m) :
    Except RunError (DriverState n m × List (Event n)) :=
  if cfg.saveInterval = 0 then Except.error RunError.zeroDivision else
  let qualityVar := newQuality cfg k st
  let evs := ckptEvents C cfg k st
  let newDeform := fun i => C.deformNorm (candMesh C st) i
  let loss := iterLoss C cfg st
  if cfg.displayInterval = 0 then Except.error RunError.zeroDivision else
  if fvLt loss st.bestLoss = true then
    match (if cfg.save = true then
        (match qualityVar with
          | some q => Except.ok (some (candMesh C st), some q)
          | none => Except.error (RunError.unboundLocal nmQuality))
      else Except.ok (st.bestMesh, st.bestQuality)) with
    | Except.error e => Except.error e
    | Except.ok mq =>
      let st1 :=
        { st with
          bestLoss := loss
          bestIteration := some k
          bestStructural := some (structOf C st)
          bestMaxDisp := some (maxDispOf C st)
          bestMaxDeform := some (maxDeformOf C st)
          bestLS := optOr (lapOf C cfg st) st.bestLS
          bestNC := optOr (ncOf C cfg st) st.bestNC
          bestVar := optOr (varOf C cfg st) st.bestVar
          bestMesh := mq.1
          bestQuality := mq.2 }
      finishIter C cfg st1 qualityVar newDeform evs
  else finishIter C cfg st qualityVar newDeform evs

/-- The driver state right after `__init__` and the `best_loss = inf`
assignment of source line 75: seeded displacements, zero momentum buffer,
deformation norms from the calibration evaluation of the base mesh (source
line 19), calibrated factors, and everything else unassigned. -/
def initState (C : Collab n m) (cfg : Config) : DriverState n m :=
  { initialMesh := C.initialMesh
    displacements := C.d0
    velocity := fun _ => v3zero
    lastDeform := fun i => C.deformNorm C.initialMesh i
    lapFactor := if cfg.withLap = true then laplsmoothScalingFactor C cfg else FV.fin 0
    ncFactor := if cfg.withNC = true then normconsScalingFactor C cfg else FV.fin 0
    varFactor := if cfg.withVar = true then varareasScalingFactor C cfg else FV.fin 0
    qualityVar := none
    bestLoss := FV.inf
    bestIteration := none
    bestStructural := none
    bestMaxDisp := none
    bestMaxDeform := none
    bestLS := none
    bestNC := none
    bestVar := none
    bestMesh := none
    bestQuality := none }

/-- The first `k` iterations of the loop, with the mesh files they wrote. -/
def runIters (C : Collab n m) (cfg : Config) : Nat → Except RunError (DriverState n m × List (Event n))
  | 0 => Except.ok (initState C cfg, [])
  | Nat.succ k =>
    match runIters C cfg k with
    | Except.error e => Except.error e
    | Except.ok (st, evs) =>
      match iterStep C cfg k st with
      | Except.error e => Except.error e
      | Except.ok (st2, evs2) => Except.ok (st2, evs ++ evs2)

/-- The post-loop best-mesh emission (source lines 187-189): when saving is
enabled and at least one iteration ran, read `best_iteration`, `best_mesh`
and `best_quality` (each possibly never assigned) and write the best file. -/
def postLoop (cfg : Config) (st : DriverState n m) : Except RunError (List (Event n)) :=
  if cfg.save = true ∧ 0 < cfg.nIter then
    match st.bestIteration with
    | none => Except.error (RunError.unboundLocal nmBestIteration)
    | some b =>
    match st.bestMesh with
    | none => Except.error (RunError.unboundLocal nmBestMesh)
    | some bm =>
    match st.bestQuality with
    | none => Except.error (RunError.unboundLocal nmBestQuality)
    | some bq => Except.ok [Event.mk (bestFileName cfg b) bm bq]
  else Except.ok []

/-- The whole of `start`: the loop over `n_iter` iterations followed by the
post-loop best-mesh emission. -/
def runStart (C : Collab n m) (cfg : Config) :
    Except RunError (DriverState n m × List (Event n)) :=
  match runIters C cfg cfg.nIter with
  | Except.error e => Except.error e
  | Except.ok (st, evs) =>
    match postLoop cfg st with
    | Except.error e => Except.error e
    | Except.ok evs2 => Except.ok (st, evs ++ evs2)

/-- Whether the first `k` iterations complete without raising. -/
def runOk (C : Collab n m) (cfg : Config) (k : Nat) : Bool :=
  match runIters C cfg k with
  | Except.ok _ => true
  | Except.error _ => false

/-- The driver state after `k` successful iterations (junk when the run
raised earlier). -/
def stateAt (C : Collab n m) (cfg : Config) (k : Nat) : DriverState n m :=
  match runIters C cfg k with
  | Except.ok (st, _) => st
  | Except.error _ => initState C cfg

/-- The files written during iteration `k` itself. -/
def stepEvents (C : Collab n m) (cfg : Config) (k : Nat) : List (Event n) :=
  match iterStep C cfg k (stateAt C cfg k) with
  | Except.ok (_, evs) => evs
  | Except.error _ => []

/-- The files written by the post-loop best-mesh emission. -/
def postEvents (C : Collab n m) (cfg : Config) : List (Event n) :=
  match postLoop cfg (stateAt C cfg cfg.nIter) with
  | Except.ok evs => evs
  | Except.error _ => []

/-- The total objective of iteration `k` of the run. -/
def lossAtIter (C : Collab n m) (cfg : Config) (k : Nat) : FV :=
  iterLoss C cfg (stateAt C cfg k)

/-- The candidate mesh of iteration `k` of the run. -/
def candAtIter (C : Collab n m) (cfg : Config) (k : Nat) : MeshV n :=
  candMesh C (stateAt C cfg k)

/-- The structural loss of iteration `k` of the run. -/
def structAtIter (C : Collab n m) (cfg : Config) (k : Nat) : FV :=
  structOf C (stateAt C cfg k)

/-- The complete best-state snapshot of a driver state: best loss, best
iteration index, the diagnostics saved with them, and the best mesh and
quality. -/
def snapshotOf (st : DriverState n m) :
    FV × Option Nat × Option FV × Option ℚ × Option ℚ × Option FV × Option FV ×
      Option FV × Option (MeshV n) × Option (Fin n → ℚ) :=
  (st.bestLoss, st.bestIteration, st.bestStructural, st.bestMaxDisp,
   st.bestMaxDeform, st.bestLS, st.bestNC, st.bestVar, st.bestMesh, st.bestQuality)

/-- The best-state snapshot written by source lines 140-157 when the current
objective strictly improves on the best loss. -/
def bestUpdatedState (C : Collab n m) (cfg : Config) (k : Nat) (st : DriverState n m) :
    DriverState n m :=
  { st with
    bestLoss := iterLoss C cfg st
    bestIteration := some k
    bestStructural := some (structOf C st)
    bestMaxDisp := some (maxDispOf C st)
    bestMaxDeform := some (maxDeformOf C st)
    bestLS := optOr (lapOf C cfg st) st.bestLS
    bestNC := optOr (ncOf C cfg st) st.bestNC
    bestVar := optOr (varOf C cfg st) st.bestVar
    bestMesh := if cfg.save = true then some (candMesh C st) else st.bestMesh
    bestQuality := if cfg.save = true then newQuality cfg k st else st.bestQuality }

/-- The state reached by a successful iteration `k`: the best-state update
when the strict comparison fires, the SGD parameter and velocity update, the
fresh deformation norms and the updated `quality` local. -/
def stepResult (C : Collab n m) (cfg : Config) (k : Nat) (st : DriverState n m) :
    DriverState n m :=
  let stB := if fvLt (iterLoss C cfg st) st.bestLoss = true then
    bestUpdatedState C cfg k st else st
  let v2 := fun i => v3add (v3smul cfg.momentum (st.velocity i)) (C.grad st.displacements i)
  { stB with
    displacements := fun i => v3sub (st.displacements i) (v3smul cfg.lr (v2 i))
    velocity := v2
    lastDeform := fun i => C.deformNorm (candMesh C st) i
    qualityVar := newQuality cfg k st }

/-- A tiny concrete mesh: one vertex at the origin. -/
def meshW : MeshV 1 := fun _ => v3zero

/-- Concrete collaborators on a one-vertex mesh whose single vertex is free:
the structural loss and the deformation norm are the x-coordinate of the
vertex, and the gradient oracle is the constant vector (1, 0, 0). -/
def Cw : Collab 1 1 where
  initialMesh := meshW
  free := fun _ => some 0
  struct := fun mesh => FV.fin (mesh 0).1
  deformNorm := fun mesh _ => (mesh 0).1
  vnorm := fun v => v.1
  lap := fun mesh => FV.fin (qAdd (mesh 0).1 1)
  nc := fun _ => FV.fin 2
  varFA := fun _ => FV.fin 3
  grad := fun _ _ => (1, 0, 0)
  d0 := fun _ => v3zero

/-- The same collaborators with a structural loss that is always NaN. -/
def CwNan : Collab 1 1 := { Cw with struct := fun _ => FV.nan }

/-- The same collaborators with a nonzero displacement seed, so that the
candidate mesh of iteration 0 differs from the base mesh. -/
def CwOff : Collab 1 1 := { Cw with d0 := fun _ => (1, 0, 0) }

/-- Base configuration for concrete runs: no regularizers, no saving, no
wandb, two iterations. -/
def cfgW : Config where
  lr := 1
  momentum := 0
  withLap := false
  withNC := false
  withVar := false
  lapPerc := -1
  ncPerc := -1
  varPerc := -1
  nIter := 2
  save := false
  saveInterval := 1
  displayInterval := -1
  saveLabel := "run"
  savePre := ""
  wandbOn := false

/-- Configuration exercising both calibration paths: laplacian smoothing and
face-area variance with real percentages, normal consistency with the -1
sentinel. -/
def cfgCal : Config :=
  { cfgW with
    withLap := true
    lapPerc := 2
    withNC := true
    ncPerc := -1
    withVar := true
    varPerc := 3 }

/-- Configuration with all three regularizers enabled at percentage -1. -/
def cfgAll : Config :=
  { cfgW with
    withLap := true
    withNC := true
    withVar := true }

/-- Configuration with saving enabled and a single iteration. -/
def cfgSave : Config :=
  { cfgW with
    save := true
    nIter := 1 }

/-- Configuration with a wandb sink and a single iteration (all three
regularizers disabled, as in `cfgW`). -/
def cfgWandb : Config :=
  { cfgW with
    wandbOn := true
    nIter := 1 }

/-- Configuration asking for zero iterations. -/
def cfgZero : Config :=
  { cfgW with
    nIter := 0 }

/-- Statement of claim C1: for each enabled regularizer the scaling factor
set up at startup is `p * loss_0 / max(term_0, 1e-3)` when the percentage
`p` is not -1 and exactly 1 when it is -1, and the three factors never
change during the loop. -/
def calibrationProp (C : Collab n m) (cfg : Config) : Prop :=
  (cfg.withLap = true → cfg.lapPerc = -1 → (initState C cfg).lapFactor = FV.fin 1) ∧
  (cfg.withLap = true → cfg.lapPerc ≠ -1 → (initState C cfg).lapFactor =
    fvDiv (fvMul (FV.fin cfg.lapPerc) (C.struct C.initialMesh))
      (fvPymax (C.lap C.initialMesh) (FV.fin (1 / 1000)))) ∧
  (cfg.withNC = true → cfg.ncPerc = -1 → (initState C cfg).ncFactor = FV.fin 1) ∧
  (cfg.withNC = true → cfg.ncPerc ≠ -1 → (initState C cfg).ncFactor =
    fvDiv (fvMul (FV.fin cfg.ncPerc) (C.struct C.initialMesh))
      (fvPymax (C.nc C.initialMesh) (FV.fin (1 / 1000)))) ∧
  (cfg.withVar = true → cfg.varPerc = -1 → (initState C cfg).varFactor = FV.fin 1) ∧
  (cfg.withVar = true → cfg.varPerc ≠ -1 → (initState C cfg).varFactor =
    fvDiv (fvMul (FV.fin cfg.varPerc) (C.struct C.initialMesh))
      (fvPymax (C.varFA C.initialMesh) (FV.fin (1 / 1000)))) ∧
  (∀ k, runOk C cfg k = true →
    (stateAt C cfg k).lapFactor = (initState C cfg).lapFactor ∧
      (stateAt C cfg k).ncFactor = (initState C cfg).ncFactor ∧
      (stateAt C cfg k).varFactor = (initState C cfg).varFactor)

/-- Statement of claim C2 at iteration `k`: the offset is exactly zero at
constrained vertices and the displacement rows at free vertices; the
candidate mesh adds this offset to the base mesh; every file written by the
iteration holds the candidate mesh; and the step leaves the base mesh
unchanged. -/
def offsetProp (C : Collab n m) (cfg : Config) (k : Nat) : Prop :=
  (∀ i, C.free i = none →
    buildOffset C.free (stateAt C cfg k).displacements i = v3zero) ∧
  (∀ i j, C.free i = some j →
    buildOffset C.free (stateAt C cfg k).displacements i =
      (stateAt C cfg k).displacements j) ∧
  (∀ i, candAtIter C cfg k i =
    v3add ((stateAt C cfg k).initialMesh i)
      (buildOffset C.free (stateAt C cfg k).displacements i)) ∧
  (∀ e, e ∈ stepEvents C cfg k → e.mesh = candAtIter C cfg k) ∧
  (stateAt C cfg (k + 1)).initialMesh = (stateAt C cfg k).initialMesh

/-- Statement of claim C3 at iteration `k`: the snapshot is overwritten with
iteration `k`'s data exactly when the new objective is strictly below the
recorded best (unchanged otherwise), the recorded best loss never increases,
and the recorded best iteration is always the first iteration attaining the
current minimum. -/
def bestTrackingProp (C : Collab n m) (cfg : Config) (k : Nat) : Prop :=
  (fvLt (lossAtIter C cfg k) (stateAt C cfg k).bestLoss = true →
    snapshotOf (stateAt C cfg (k + 1)) =
      snapshotOf (bestUpdatedState C cfg k (stateAt C cfg k)) ∧
      (stateAt C cfg (k + 1)).bestLoss = lossAtIter C cfg k ∧
      (stateAt C cfg (k + 1)).bestIteration = some k) ∧
  (fvLt (lossAtIter C cfg k) (stateAt C cfg k).bestLoss = false →
    snapshotOf (stateAt C cfg (k + 1)) = snapshotOf (stateAt C cfg k)) ∧
  fvLe (stateAt C cfg (k + 1)).bestLoss (stateAt C cfg k).bestLoss ∧
  (∀ b, (stateAt C cfg (k + 1)).bestIteration = some b →
    lossAtIter C cfg b = (stateAt C cfg (k + 1)).bestLoss ∧
      (∀ j, j ≤ k → fvLt (lossAtIter C cfg j) (stateAt C cfg (k + 1)).bestLoss = false) ∧
      (∀ j, j < b → lossAtIter C cfg j ≠ (stateAt C cfg (k + 1)).bestLoss))

/-- Statement of claim C4: an iteration with NaN objective never touches the
best-state snapshot, and over any stretch of NaN iterations the snapshot
stays exactly what it was when the stretch began. -/
def nanFreezeProp (C : Collab n m) (cfg : Config) : Prop :=
  (∀ k, runOk C cfg (k + 1) = true → lossAtIter C cfg k = FV.nan →
    snapshotOf (stateAt C cfg (k + 1)) = snapshotOf (stateAt C cfg k)) ∧
  (∀ a k, a ≤ k → runOk C cfg k = true →
    (∀ j, a ≤ j → j < k → lossAtIter C cfg j = FV.nan) →
    snapshotOf (stateAt C cfg k) = snapshotOf (stateAt C cfg a))

/-- Statement of claim C6 at iteration `k`: the step performs exactly one
momentum-SGD update with the configured coefficients, and with zero momentum
the parameter moves by exactly `-lr * grad`. -/
def sgdStepProp (C : Collab n m) (cfg : Config) (k : Nat) : Prop :=
  (stateAt C cfg (k + 1)).velocity =
    (fun i => v3add (v3smul cfg.momentum ((stateAt C cfg k).velocity i))
      (C.grad (stateAt C cfg k).displacements i)) ∧
  (stateAt C cfg (k + 1)).displacements =
    (fun i => v3sub ((stateAt C cfg k).displacements i)
      (v3smul cfg.lr (v3add (v3smul cfg.momentum ((stateAt C cfg k).velocity i))
        (C.grad (stateAt C cfg k).displacements i)))) ∧
  (cfg.momentum = 0 →
    (stateAt C cfg (k + 1)).displacements =
      fun i => v3sub ((stateAt C cfg k).displacements i)
        (v3smul cfg.lr (C.grad (stateAt C cfg k).displacements i)))

/-- Statement of claim C7 at iteration `k`: with all three regularizers
enabled at percentage -1, every scaling factor is 1 and the total objective
is the plain unweighted sum of the structural loss and the three raw
regularizer values on the iteration's candidate mesh. -/
def rawSumProp (C : Collab n m) (cfg : Config) (k : Nat) : Prop :=
  (stateAt C cfg k).lapFactor = FV.fin 1 ∧
  (stateAt C cfg k).ncFactor = FV.fin 1 ∧
  (stateAt C cfg k).varFactor = FV.fin 1 ∧
  lossAtIter C cfg k =
    fvAdd (fvAdd (fvAdd (C.struct (candAtIter C cfg k)) (C.lap (candAtIter C cfg k)))
      (C.nc (candAtIter C cfg k))) (C.varFA (candAtIter C cfg k))

/-- Statement of the amended claim C8 at iteration `k`: a periodic
checkpoint carries the deformation norms of the structural evaluation that
preceded it (the previous iteration's candidate mesh; for iteration 0, the
base mesh), not those of the current iteration; and the final best file
carries the `best_quality` stored in the snapshot. -/
def qualityProp (C : Collab n m) (cfg : Config) (k : Nat) : Prop :=
  (∀ e, e ∈ stepEvents C cfg k → e.quality = (stateAt C cfg k).lastDeform) ∧
  (stateAt C cfg (k + 1)).lastDeform = (fun i => C.deformNorm (candAtIter C cfg k) i) ∧
  (stateAt C cfg 0).lastDeform = (fun i => C.deformNorm C.initialMesh i) ∧
  (∀ e, e ∈ postEvents C cfg → some e.quality = (stateAt C cfg cfg.nIter).bestQuality)

theorem qAdd_eq (a b : ℚ) : qAdd a b = a + b := by
  have ha : (a.den : ℚ) ≠ 0 := by
    exact_mod_cast a.den_ne_zero
  have hb : (b.den : ℚ) ≠ 0 := by
    exact_mod_cast b.den_ne_zero
  unfold qAdd
  rw [Rat.divInt_eq_div]
  conv_rhs => rw [← Rat.num_div_den a, ← Rat.num_div_den b]
  rw [div_add_div _ _ ha hb]
  push_cast
  ring_nf

theorem qMul_eq (a b : ℚ) : qMul a b = a * b := by
  unfold qMul
  rw [Rat.divInt_eq_div]
  conv_rhs => rw [← Rat.num_div_den a, ← Rat.num_div_den b]
  rw [div_mul_div_comm]
  push_cast
  ring_nf

theorem qSub_eq (a b : ℚ) : qSub a b = a - b := by
  have ha : (a.den : ℚ) ≠ 0 := by
    exact_mod_cast a.den_ne_zero
  have hb : (b.den : ℚ) ≠ 0 := by
    exact_mod_cast b.den_ne_zero
  unfold qSub
  rw [Rat.divInt_eq_div]
  conv_rhs => rw [← Rat.num_div_den a, ← Rat.num_div_den b]
  rw [div_sub_div _ _ ha hb]
  push_cast
  ring_nf

theorem qDiv_eq (a b : ℚ) : qDiv a b = a / b := by
  unfold qDiv
  by_cases hb : b = 0
  · subst hb
    simp
  · have ha : (a.den : ℚ) ≠ 0 := by
      exact_mod_cast a.den_ne_zero
    have hbd : (b.den : ℚ) ≠ 0 := by
      exact_mod_cast b.den_ne_zero
    have hbn : (b.num : ℚ) ≠ 0 := by
      exact_mod_cast Rat.num_ne_zero.mpr hb
    have hna : (a.num : ℚ) = a * a.den := (div_eq_iff ha).mp (Rat.num_div_den a)
    have hnb : (b.num : ℚ) = b * b.den := (div_eq_iff hbd).mp (Rat.num_div_den b)
    rw [Rat.divInt_eq_div]
    push_cast
    rw [div_eq_div_iff (mul_ne_zero ha hbn) hb]
    rw [hna, hnb]
    ring

theorem epsQ_eq : epsQ = 1 / 1000 := by
  unfold epsQ
  rw [Rat.mkRat_eq_div]
  norm_num

theorem fvLt_irrefl (a : FV) : fvLt a a = false := by
  cases a <;> simp [fvLt]

theorem fvLt_trans {a b c : FV} (h1 : fvLt a b = true) (h2 : fvLt b c = true) :
    fvLt a c = true := by
  cases a <;> cases b <;> cases c <;> simp_all [fvLt]
  linarith

theorem fvAdd_zero_left (x : FV) : fvAdd (FV.fin 0) x = x := by
  cases x <;> simp [fvAdd, qAdd_eq]

theorem fvMul_one_left (x : FV) : fvMul (FV.fin 1) x = x := by
  cases x <;> simp [fvMul, fvSignMul, qMul_eq]

theorem v3smul_zero_coeff (a : Vec3) : v3smul 0 a = v3zero := by
  simp [v3smul, v3zero, qMul_eq]

theorem v3add_zero_left (a : Vec3) : v3add v3zero a = a := by
  simp [v3add, v3zero, qAdd_eq]

theorem iterStep_ok_shape {C : Collab n m} {cfg : Config} {k : Nat}
    {st st2 : DriverState n m} {evs2 : List (Event n)}
    (h : iterStep C cfg k st = Except.ok (st2, evs2)) :
    cfg.saveInterval ≠ 0 ∧ cfg.displayInterval ≠ 0 ∧
      st2 = stepResult C cfg k st ∧ evs2 = ckptEvents C cfg k st := by
  by_cases hsi : cfg.saveInterval = 0
  · unfold iterStep at h
    simp [hsi] at h
  by_cases hdi : cfg.displayInterval = 0
  · unfold iterStep at h
    simp [hsi, hdi] at h
  refine ⟨hsi, hdi, ?_⟩
  unfold iterStep finishIter at h
  by_cases hb : fvLt (iterLoss C cfg st) st.bestLoss = true
  · by_cases hs : cfg.save = true
    · cases hq : newQuality cfg k st with
      | none =>
        simp only [if_neg hsi, if_neg hdi, if_pos hb, if_pos hs, hq] at h
        exact absurd h (by simp)
      | some q =>
        simp only [if_neg hsi, if_neg hdi, if_pos hb, if_pos hs, hq] at h
        split at h
        · exact absurd h (by simp)
        · simp only [Except.ok.injEq, Prod.mk.injEq] at h
          obtain ⟨h1, h2⟩ := h
          subst h1 h2
          refine ⟨?_, rfl⟩
          simp [stepResult, bestUpdatedState, if_pos hb, if_pos hs, hq]
    · simp only [if_neg hsi, if_neg hdi, if_pos hb, if_neg hs] at h
      split at h
      · exact absurd h (by simp)
      · simp only [Except.ok.injEq, Prod.mk.injEq] at h
        obtain ⟨h1, h2⟩ := h
        subst h1 h2
        refine ⟨?_, rfl⟩
        simp [stepResult, bestUpdatedState, if_pos hb, if_neg hs]
  · simp only [if_neg hsi, if_neg hdi, if_neg hb] at h
    split at h
    · exact absurd h (by simp)
    · simp only [Except.ok.injEq, Prod.mk.injEq] at h
      obtain ⟨h1, h2⟩ := h
      subst h1 h2
      refine ⟨?_, rfl⟩
      simp [stepResult, if_neg hb]

theorem stateAt_zero (C : Collab n m) (cfg : Config) : stateAt C cfg 0 = initState C cfg := rfl

theorem runOk_zero (C : Collab n m) (cfg : Config) : runOk C cfg 0 = true := rfl

theorem runOk_succ_elim {C : Collab n m} {cfg : Config} {k : Nat}
    (h : runOk C cfg (k + 1) = true) :
    runOk C cfg k = true ∧
      iterStep C cfg k (stateAt C cfg k) =
        Except.ok (stateAt C cfg (k + 1), stepEvents C cfg k) := by
  cases hr : runIters C cfg k with
  | error e =>
    exfalso
    unfold runOk at h
    simp only [runIters, hr] at h
    simp at h
  | ok p =>
    obtain ⟨st, evs⟩ := p
    cases hs : iterStep C cfg k st with
    | error e =>
      exfalso
      unfold runOk at h
      simp only [runIters, hr, hs] at h
      simp at h
    | ok q =>
      obtain ⟨st2, evs2⟩ := q
      have hok : runIters C cfg (k + 1) = Except.ok (st2, evs ++ evs2) := by
        simp only [runIters, hr, hs]
      have hst : stateAt C cfg k = st := by
        unfold stateAt
        rw [hr]
      have hst2 : stateAt C cfg (k + 1) = st2 := by
        unfold stateAt
        rw [hok]
      have hevs : stepEvents C cfg k = evs2 := by
        unfold stepEvents
        rw [hst, hs]
      constructor
      · unfold runOk
        rw [hr]
      · rw [hst, hst2, hevs, hs]

theorem runOk_mono {C : Collab n m} {cfg : Config} {j k : Nat} (hjk : j ≤ k)
    (h : runOk C cfg k = true) : runOk C cfg j = true := by
  induction k with
  | zero =>
    have hz : j = 0 := Nat.le_zero.mp hjk
    subst hz
    exact h
  | succ k ih =>
    by_cases hj : j = k + 1
    · subst hj
      exact h
    · exact ih (Nat.lt_succ_iff.mp (Nat.lt_of_le_of_ne hjk hj)) (runOk_succ_elim h).1

theorem stepResult_factors (C : Collab n m) (cfg : Config) (k : Nat) (st : DriverState n m) :
    (stepResult C cfg k st).lapFactor = st.lapFactor ∧
      (stepResult C cfg k st).ncFactor = st.ncFactor ∧
      (stepResult C cfg k st).varFactor = st.varFactor ∧
      (stepResult C cfg k st).initialMesh = st.initialMesh := by
  unfold stepResult bestUpdatedState
  by_cases hb : fvLt (iterLoss C cfg st) st.bestLoss = true <;> simp [hb]

theorem stepResult_sgd (C : Collab n m) (cfg : Config) (k : Nat) (st : DriverState n m) :
    (stepResult C cfg k st).velocity =
        (fun i => v3add (v3smul cfg.momentum (st.velocity i)) (C.grad st.displacements i)) ∧
      (stepResult C cfg k st).displacements =
        (fun i => v3sub (st.displacements i)
          (v3smul cfg.lr (v3add (v3smul cfg.momentum (st.velocity i))
            (C.grad st.displacements i)))) := by
  unfold stepResult
  by_cases hb : fvLt (iterLoss C cfg st) st.bestLoss = true <;> simp [hb]

theorem stepResult_lastDeform (C : Collab n m) (cfg : Config) (k : Nat) (st : DriverState n m) :
    (stepResult C cfg k st).lastDeform = fun i => C.deformNorm (candMesh C st) i := by
  unfold stepResult
  by_cases hb : fvLt (iterLoss C cfg st) st.bestLoss = true <;> simp [hb]

theorem stepResult_qualityVar (C : Collab n m) (cfg : Config) (k : Nat) (st : DriverState n m) :
    (stepResult C cfg k st).qualityVar = newQuality cfg k st := by
  unfold stepResult
  by_cases hb : fvLt (iterLoss C cfg st) st.bestLoss = true <;> simp [hb]

theorem stepResult_snapshot (C : Collab n m) (cfg : Config) (k : Nat) (st : DriverState n m) :
    snapshotOf (stepResult C cfg k st) =
      if fvLt (iterLoss C cfg st) st.bestLoss = true then
        snapshotOf (bestUpdatedState C cfg k st) else snapshotOf st := by
  unfold stepResult snapshotOf
  by_cases hb : fvLt (iterLoss C cfg st) st.bestLoss = true <;> simp [hb]

theorem snapshot_fields {st2 st : DriverState n m} (h : snapshotOf st2 = snapshotOf st) :
    st2.bestLoss = st.bestLoss ∧ st2.bestIteration = st.bestIteration ∧
      st2.bestStructural = st.bestStructural ∧ st2.bestMaxDisp = st.bestMaxDisp ∧
      st2.bestMaxDeform = st.bestMaxDeform ∧ st2.bestLS = st.bestLS ∧
      st2.bestNC = st.bestNC ∧ st2.bestVar = st.bestVar ∧
      st2.bestMesh = st.bestMesh ∧ st2.bestQuality = st.bestQuality := by
  unfold snapshotOf at h
  simp only [Prod.mk.injEq] at h
  exact h

theorem best_inv {C : Collab n m} {cfg : Config} (k : Nat) (h : runOk C cfg k = true) :
    ((stateAt C cfg k).bestIteration = none →
      (stateAt C cfg k).bestLoss = FV.inf ∧
        ∀ j, j < k → fvLt (lossAtIter C cfg j) FV.inf = false) ∧
    (∀ b, (stateAt C cfg k).bestIteration = some b →
      b < k ∧ lossAtIter C cfg b = (stateAt C cfg k).bestLoss ∧
        (∀ j, j < k → fvLt (lossAtIter C cfg j) (stateAt C cfg k).bestLoss = false) ∧
        (∀ j, j < b → lossAtIter C cfg j ≠ (stateAt C cfg k).bestLoss)) := by
  induction k with
  | zero =>
    constructor
    · intro _
      exact ⟨rfl, fun j hj => absurd hj (Nat.not_lt_zero j)⟩
    · intro b hb
      rw [stateAt_zero] at hb
      exact absurd hb (by simp [initState])
  | succ k ih =>
    obtain ⟨hOk, hStep⟩ := runOk_succ_elim h
    have ihk := ih hOk
    obtain ⟨_, _, hshape, _⟩ := iterStep_ok_shape hStep
    have hmin : ∀ j, j < k → fvLt (lossAtIter C cfg j) (stateAt C cfg k).bestLoss = false := by
      cases hbi : (stateAt C cfg k).bestIteration with
      | none =>
        intro j hj
        have h1 := ihk.1 hbi
        rw [h1.1]
        exact h1.2 j hj
      | some b0 =>
        intro j hj
        exact (ihk.2 b0 hbi).2.2.1 j hj
    by_cases hb : fvLt (iterLoss C cfg (stateAt C cfg k)) (stateAt C cfg k).bestLoss = true
    · have hsnap : snapshotOf (stateAt C cfg (k + 1)) =
          snapshotOf (bestUpdatedState C cfg k (stateAt C cfg k)) := by
        rw [hshape, stepResult_snapshot, if_pos hb]
      have hfields := snapshot_fields hsnap
      have hBL : (stateAt C cfg (k + 1)).bestLoss = iterLoss C cfg (stateAt C cfg k) := by
        rw [hfields.1]
        simp [bestUpdatedState]
      have hBI : (stateAt C cfg (k + 1)).bestIteration = some k := by
        rw [hfields.2.1]
        simp [bestUpdatedState]
      have hminNew : ∀ j, j < k + 1 →
          fvLt (lossAtIter C cfg j) (iterLoss C cfg (stateAt C cfg k)) = false := by
        intro j hj
        by_cases hjk : j = k
        · subst hjk
          exact fvLt_irrefl _
        · have hjlt : j < k := Nat.lt_of_le_of_ne (Nat.lt_succ_iff.mp hj) hjk
          cases hx : fvLt (lossAtIter C cfg j) (iterLoss C cfg (stateAt C cfg k)) with
          | false => rfl
          | true =>
            exfalso
            have h3 := fvLt_trans hx hb
            rw [hmin j hjlt] at h3
            exact Bool.noConfusion h3
      constructor
      · intro hnone
        rw [hBI] at hnone
        exact absurd hnone (by simp)
      · intro b hbsome
        rw [hBI] at hbsome
        have hbk : k = b := Option.some.inj hbsome
        subst hbk
        refine ⟨Nat.lt_succ_self k, ?_, ?_, ?_⟩
        · rw [hBL]
          rfl
        · intro j hj
          rw [hBL]
          exact hminNew j hj
        · intro j hj
          rw [hBL]
          intro heq
          have h4 : fvLt (lossAtIter C cfg j) (stateAt C cfg k).bestLoss = true := by
            rw [heq]
            exact hb
          rw [hmin j hj] at h4
          exact Bool.noConfusion h4
    · have hbF : fvLt (iterLoss C cfg (stateAt C cfg k)) (stateAt C cfg k).bestLoss = false :=
        Bool.eq_false_iff.mpr hb
      have hsnap : snapshotOf (stateAt C cfg (k + 1)) = snapshotOf (stateAt C cfg k) := by
        rw [hshape, stepResult_snapshot, if_neg hb]
      have hfields := snapshot_fields hsnap
      constructor
      · intro hnone
        rw [hfields.2.1] at hnone
        have h1 := ihk.1 hnone
        rw [hfields.1, h1.1]
        refine ⟨rfl, ?_⟩
        intro j hj
        by_cases hjk : j = k
        · subst hjk
          have h5 := hbF
          rw [h1.1] at h5
          exact h5
        · exact h1.2 j (Nat.lt_of_le_of_ne (Nat.lt_succ_iff.mp hj) hjk)
      · intro b hbsome
        rw [hfields.2.1] at hbsome
        have h2 := ihk.2 b hbsome
        rw [hfields.1]
        refine ⟨Nat.lt_succ_of_lt h2.1, h2.2.1, ?_, h2.2.2.2⟩
        intro j hj
        by_cases hjk : j = k
        · subst hjk
          exact hbF
        · exact h2.2.2.1 j (Nat.lt_of_le_of_ne (Nat.lt_succ_iff.mp hj) hjk)

theorem iterStep_eval_noupdate {C : Collab n m} {cfg : Config} {k : Nat}
    {st : DriverState n m}
    (hsi : cfg.saveInterval ≠ 0) (hdi : cfg.displayInterval ≠ 0)
    (hw : cfg.wandbOn = false)
    (hb : fvLt (iterLoss C cfg st) st.bestLoss = false) :
    iterStep C cfg k st = Except.ok (stepResult C cfg k st, ckptEvents C cfg k st) := by
  unfold iterStep finishIter
  simp only [if_neg hsi, if_neg hdi, hb, hw]
  simp [stepResult, hb]

theorem iterStep_err_of_wandb {C : Collab n m} {cfg : Config} {k : Nat}
    {st : DriverState n m} {e : RunError}
    (hsi : cfg.saveInterval ≠ 0) (hdi : cfg.displayInterval ≠ 0)
    (hw : cfg.wandbOn = true)
    (hq : fvLt (iterLoss C cfg st) st.bestLoss = true → cfg.save = true →
      ∃ qv, newQuality cfg k st = some qv)
    (he : wandbCheck (if fvLt (iterLoss C cfg st) st.bestLoss = true then
        bestUpdatedState C cfg k st else st) = Except.error e) :
    iterStep C cfg k st = Except.error e := by
  unfold iterStep finishIter
  by_cases hb : fvLt (iterLoss C cfg st) st.bestLoss = true
  · rw [if_pos hb] at he
    by_cases hs : cfg.save = true
    · obtain ⟨qv, hqv⟩ := hq hb hs
      simp only [bestUpdatedState, if_pos hs, hqv] at he
      simp only [if_neg hsi, if_neg hdi, if_pos hb, if_pos hs, hqv, hw, he]
      simp
    · simp only [bestUpdatedState, if_neg hs] at he
      simp only [if_neg hsi, if_neg hdi, if_pos hb, if_neg hs, hw, he]
      simp
  · rw [if_neg hb] at he
    simp only [if_neg hsi, if_neg hdi, if_neg hb, hw, he]
    simp

theorem runIters_err_mono {C : Collab n m} {cfg : Config} {j : Nat} {e : RunError}
    (h : runIters C cfg j = Except.error e) {k : Nat} (hjk : j ≤ k) :
    runIters C cfg k = Except.error e := by
  induction k with
  | zero =>
    have hz : j = 0 := Nat.le_zero.mp hjk
    subst hz
    exact h
  | succ k ih =>
    by_cases hj : j = k + 1
    · subst hj
      exact h
    · have hle : j ≤ k := Nat.lt_succ_iff.mp (Nat.lt_of_le_of_ne hjk hj)
      simp only [runIters, ih hle]

theorem runIters_one_err {C : Collab n m} {cfg : Config} {e : RunError}
    (h : iterStep C cfg 0 (initState C cfg) = Except.error e) :
    runIters C cfg 1 = Except.error e := by
  simp only [runIters, h]

theorem runStart_err_of_post {C : Collab n m} {cfg : Config}
    {st : DriverState n m} {evs : List (Event n)} {e : RunError}
    (hr : runIters C cfg cfg.nIter = Except.ok (st, evs))
    (hp : postLoop cfg st = Except.error e) :
    runStart C cfg = Except.error e := by
  unfold runStart
  simp only [hr, hp]

theorem runStart_err_of_iters {C : Collab n m} {cfg : Config} {e : RunError}
    (hr : runIters C cfg cfg.nIter = Except.error e) :
    runStart C cfg = Except.error e := by
  unfold runStart
  simp only [hr]

theorem postLoop_unbound {cfg : Config} {st : DriverState n m}
    (hsave : cfg.save = true) (hn : 0 < cfg.nIter) (hbi : st.bestIteration = none) :
    postLoop cfg st = Except.error (RunError.unboundLocal nmBestIteration) := by
  unfold postLoop
  rw [if_pos ⟨hsave, hn⟩, hbi]

theorem factors_at_init {C : Collab n m} {cfg : Config} {k : Nat}
    (h : runOk C cfg k = true) :
    (stateAt C cfg k).lapFactor = (initState C cfg).lapFactor ∧
      (stateAt C cfg k).ncFactor = (initState C cfg).ncFactor ∧
      (stateAt C cfg k).varFactor = (initState C cfg).varFactor ∧
      (stateAt C cfg k).initialMesh = (initState C cfg).initialMesh := by
  induction k with
  | zero =>
    rw [stateAt_zero]
    exact ⟨rfl, rfl, rfl, rfl⟩
  | succ k ih =>
    obtain ⟨hOk, hStep⟩ := runOk_succ_elim h
    obtain ⟨_, _, hshape, _⟩ := iterStep_ok_shape hStep
    have hf := stepResult_factors C cfg k (stateAt C cfg k)
    have ihk := ih hOk
    rw [hshape]
    exact ⟨hf.1.trans ihk.1, hf.2.1.trans ihk.2.1, hf.2.2.1.trans ihk.2.2.1,
      hf.2.2.2.trans ihk.2.2.2⟩

/-- C1: for every enabled regularizer with target percentage p not equal to
-1, the scaling factor computed once at startup equals
p * loss_0 / max(term_0, 1e-3), where loss_0 is the structural loss of the
unmodified base mesh and term_0 is the regularizer evaluated on the base
mesh; for an enabled regularizer with p = -1 the factor is exactly 1; the
factors are fixed before the loop and never change afterwards. -/
theorem C1_scaling_calibration (C : Collab n m) (cfg : Config) :
    calibrationProp C cfg := by
  unfold calibrationProp
  refine ⟨?_, ?_, ?_, ?_, ?_, ?_, ?_⟩
  · intro hw hp
    simp [initState, laplsmoothScalingFactor, hw, hp]
  · intro hw hp
    simp [initState, laplsmoothScalingFactor, loss0, epsQ_eq, hw, hp]
  · intro hw hp
    simp [initState, normconsScalingFactor, hw, hp]
  · intro hw hp
    simp [initState, normconsScalingFactor, loss0, epsQ_eq, hw, hp]
  · intro hw hp
    simp [initState, varareasScalingFactor, hw, hp]
  · intro hw hp
    simp [initState, varareasScalingFactor, loss0, epsQ_eq, hw, hp]
  · intro k hk
    obtain ⟨h1, h2, h3, _⟩ := factors_at_init hk
    exact ⟨h1, h2, h3⟩

theorem C1_scaling_calibration_witness :
    (initState Cw cfgCal).lapFactor =
      fvDiv (fvMul (FV.fin 2) (Cw.struct Cw.initialMesh))
        (fvPymax (Cw.lap Cw.initialMesh) (FV.fin (1 / 1000))) ∧
      (initState Cw cfgCal).ncFactor = FV.fin 1 ∧
      runOk Cw cfgCal 1 = true ∧
      (stateAt Cw cfgCal 1).lapFactor = (initState Cw cfgCal).lapFactor := by
  refine ⟨?_, ?_, by decide, ?_⟩
  · exact (C1_scaling_calibration Cw cfgCal).2.1 rfl (by decide)
  · exact (C1_scaling_calibration Cw cfgCal).2.2.1 rfl (by decide)
  · exact ((C1_scaling_calibration Cw cfgCal).2.2.2.2.2.2 1 (by decide)).1

/-- C2: in every successful iteration the offset tensor is exactly zero at
every constrained vertex and equals the current displacement rows,
component for component, at the free vertices; the candidate mesh is the
base mesh plus this offset, and the base mesh is not mutated. -/
theorem C2_offset_correct (C : Collab n m) (cfg : Config) (k : Nat)
    (h : runOk C cfg (k + 1) = true) : offsetProp C cfg k := by
  obtain ⟨_, hStep⟩ := runOk_succ_elim h
  obtain ⟨_, _, hshape, hevs⟩ := iterStep_ok_shape hStep
  unfold offsetProp
  refine ⟨?_, ?_, ?_, ?_, ?_⟩
  · intro i hi
    unfold buildOffset
    rw [hi]
  · intro i j hij
    unfold buildOffset
    rw [hij]
  · intro i
    rfl
  · intro e he
    rw [hevs] at he
    unfold ckptEvents at he
    by_cases hck : k % cfg.saveInterval = 0 ∧ cfg.save = true
    · rw [if_pos hck] at he
      simp only [List.mem_singleton] at he
      rw [he]
      rfl
    · rw [if_neg hck] at he
      simp at he
  · rw [hshape]
    exact (stepResult_factors C cfg k (stateAt C cfg k)).2.2.2

theorem C2_offset_correct_witness : runOk Cw cfgW 1 = true ∧ offsetProp Cw cfgW 0 :=
  ⟨by decide, C2_offset_correct Cw cfgW 0 (by decide)⟩

/-- C5: starting the loop with n_iter = 0 performs no iterations, writes no
mesh file (neither periodic nor final best) and raises no exception, for
every combination of collaborators and remaining configuration values. -/
theorem C5_zero_iterations (C : Collab n m) (cfg : Config) (h : cfg.nIter = 0) :
    runStart C cfg = Except.ok (initState C cfg, []) := by
  unfold runStart postLoop
  rw [h]
  simp [runIters]

theorem C5_zero_iterations_witness :
    runStart Cw cfgZero = Except.ok (initState Cw cfgZero, []) :=
  C5_zero_iterations Cw cfgZero rfl

/-- C6: every successful iteration applies exactly one momentum-SGD step to
the displacement parameter, v := momentum * v + grad and
param := param - lr * v, with the configured learning rate and momentum; in
particular with momentum = 0 the update is exactly param - lr * grad. -/
theorem C6_sgd_step (C : Collab n m) (cfg : Config) (k : Nat)
    (h : runOk C cfg (k + 1) = true) : sgdStepProp C cfg k := by
  obtain ⟨_, hStep⟩ := runOk_succ_elim h
  obtain ⟨_, _, hshape, _⟩ := iterStep_ok_shape hStep
  unfold sgdStepProp
  rw [hshape]
  obtain ⟨hv, hd⟩ := stepResult_sgd C cfg k (stateAt C cfg k)
  refine ⟨hv, hd, ?_⟩
  intro hm
  rw [hd]
  funext i
  rw [hm, v3smul_zero_coeff, v3add_zero_left]

theorem C6_sgd_step_witness : runOk Cw cfgW 1 = true ∧ sgdStepProp Cw cfgW 0 :=
  ⟨by decide, C6_sgd_step Cw cfgW 0 (by decide)⟩

/-- C7: when all three regularizers are enabled with target percentage -1,
all three scaling factors equal 1 and, in every successful iteration, the
total objective is the unweighted sum of the structural loss and the three
raw regularizer values on that iteration's candidate mesh. -/
theorem C7_unweighted_sum (C : Collab n m) (cfg : Config) (k : Nat)
    (hL : cfg.withLap = true) (hN : cfg.withNC = true) (hV : cfg.withVar = true)
    (hLp : cfg.lapPerc = -1) (hNp : cfg.ncPerc = -1) (hVp : cfg.varPerc = -1)
    (h : runOk C cfg k = true) : rawSumProp C cfg k := by
  have hfi := factors_at_init h
  have hlap : (initState C cfg).lapFactor = FV.fin 1 := by
    simp [initState, laplsmoothScalingFactor, hL, hLp]
  have hnc : (initState C cfg).ncFactor = FV.fin 1 := by
    simp [initState, normconsScalingFactor, hN, hNp]
  have hvar : (initState C cfg).varFactor = FV.fin 1 := by
    simp [initState, varareasScalingFactor, hV, hVp]
  have h1 : (stateAt C cfg k).lapFactor = FV.fin 1 := hfi.1.trans hlap
  have h2 : (stateAt C cfg k).ncFactor = FV.fin 1 := hfi.2.1.trans hnc
  have h3 : (stateAt C cfg k).varFactor = FV.fin 1 := hfi.2.2.1.trans hvar
  refine ⟨h1, h2, h3, ?_⟩
  unfold lossAtIter iterLoss lapOf ncOf varOf addTerm
  simp [hL, hN, hV, h1, h2, h3, fvMul_one_left, fvAdd_zero_left, structOf, candAtIter]

theorem C7_unweighted_sum_witness : rawSumProp Cw cfgAll 0 :=
  C7_unweighted_sum Cw cfgAll 0 rfl rfl rfl rfl rfl rfl rfl

theorem fvLt_nan_left (x : FV) : fvLt FV.nan x = false := by
  cases x <;> rfl

/-- C3: the best-state snapshot (best loss, best iteration index, and the
diagnostics saved with them) is overwritten in an iteration exactly when
that iteration's total objective is strictly less than the best loss
recorded so far; the recorded best-loss sequence is non-increasing; and the
recorded best iteration index is always the first iteration that attained
the current minimum (ties do not move the snapshot). -/
theorem C3_best_tracking (C : Collab n m) (cfg : Config) (k : Nat)
    (h : runOk C cfg (k + 1) = true) : bestTrackingProp C cfg k := by
  obtain ⟨hOk, hStep⟩ := runOk_succ_elim h
  obtain ⟨_, _, hshape, _⟩ := iterStep_ok_shape hStep
  have hsnap := stepResult_snapshot C cfg k (stateAt C cfg k)
  unfold bestTrackingProp
  refine ⟨?_, ?_, ?_, ?_⟩
  · intro hb
    have hb2 : fvLt (iterLoss C cfg (stateAt C cfg k)) (stateAt C cfg k).bestLoss = true := hb
    have hs2 : snapshotOf (stateAt C cfg (k + 1)) =
        snapshotOf (bestUpdatedState C cfg k (stateAt C cfg k)) := by
      rw [hshape, hsnap, if_pos hb2]
    have hfields := snapshot_fields hs2
    exact ⟨hs2, hfields.1, hfields.2.1⟩
  · intro hbf
    have hbf2 : fvLt (iterLoss C cfg (stateAt C cfg k)) (stateAt C cfg k).bestLoss = false := hbf
    rw [hshape, hsnap]
    simp [hbf2]
  · by_cases hb : fvLt (lossAtIter C cfg k) (stateAt C cfg k).bestLoss = true
    · have hb2 : fvLt (iterLoss C cfg (stateAt C cfg k)) (stateAt C cfg k).bestLoss = true := hb
      have hs2 : snapshotOf (stateAt C cfg (k + 1)) =
          snapshotOf (bestUpdatedState C cfg k (stateAt C cfg k)) := by
        rw [hshape, hsnap, if_pos hb2]
      have hfields := snapshot_fields hs2
      have hBL : (stateAt C cfg (k + 1)).bestLoss = lossAtIter C cfg k := hfields.1
      exact Or.inr (by rw [hBL]; exact hb)
    · have hbf2 : fvLt (iterLoss C cfg (stateAt C cfg k)) (stateAt C cfg k).bestLoss = false :=
        Bool.eq_false_iff.mpr hb
      have hs2 : snapshotOf (stateAt C cfg (k + 1)) = snapshotOf (stateAt C cfg k) := by
        rw [hshape, hsnap]
        simp [hbf2]
      exact Or.inl (snapshot_fields hs2).1
  · intro b hbi
    have hi := (best_inv (k + 1) h).2 b hbi
    exact ⟨hi.2.1, fun j hj => hi.2.2.1 j (Nat.lt_succ_iff.mpr hj), hi.2.2.2⟩

theorem C3_best_tracking_witness : runOk Cw cfgW 2 = true ∧ bestTrackingProp Cw cfgW 1 :=
  ⟨by decide, C3_best_tracking Cw cfgW 1 (by decide)⟩

/-- C4: an iteration whose total objective is NaN never updates the
best-state snapshot, because NaN compared with strict less-than is always
false; consequently, over any stretch of NaN iterations the best loss, best
iteration, best mesh and best diagnostics stay exactly what they were when
the stretch began. -/
theorem C4_nan_freeze (C : Collab n m) (cfg : Config) : nanFreezeProp C cfg := by
  have single : ∀ k, runOk C cfg (k + 1) = true → lossAtIter C cfg k = FV.nan →
      snapshotOf (stateAt C cfg (k + 1)) = snapshotOf (stateAt C cfg k) := by
    intro k hk hnan
    obtain ⟨hOk, hStep⟩ := runOk_succ_elim hk
    obtain ⟨_, _, hshape, _⟩ := iterStep_ok_shape hStep
    rw [hshape, stepResult_snapshot]
    have hnan2 : iterLoss C cfg (stateAt C cfg k) = FV.nan := hnan
    have hf : fvLt (iterLoss C cfg (stateAt C cfg k)) (stateAt C cfg k).bestLoss = false := by
      rw [hnan2]
      exact fvLt_nan_left _
    simp [hf]
  refine ⟨single, ?_⟩
  intro a k hak hk hnan
  induction k with
  | zero =>
    have hz : a = 0 := Nat.le_zero.mp hak
    rw [hz]
  | succ k ih =>
    by_cases hA : a = k + 1
    · rw [hA]
    · have hak2 : a ≤ k := Nat.lt_succ_iff.mp (Nat.lt_of_le_of_ne hak hA)
      have h1 := single k hk (hnan k hak2 (Nat.lt_succ_self k))
      have h2 := ih hak2 (runOk_succ_elim hk).1
        (fun j hj1 hj2 => hnan j hj1 (Nat.lt_succ_of_lt hj2))
      exact h1.trans h2

theorem C4_nan_freeze_witness :
    runOk CwNan cfgW 2 = true ∧
      lossAtIter CwNan cfgW 0 = FV.nan ∧
      snapshotOf (stateAt CwNan cfgW 2) = snapshotOf (stateAt CwNan cfgW 0) :=
  ⟨by decide, by decide,
    (C4_nan_freeze CwNan cfgW).2 0 2 (by decide) (by decide)
      (fun j _ hj => by
        have hj2 : j = 0 ∨ j = 1 := by omega
        cases hj2 with
        | inl h0 => rw [h0]; decide
        | inr h1 => rw [h1]; decide)⟩

/-- C8 counterexample: in a concrete one-vertex run with a nonzero
displacement seed, the checkpoint written at iteration 0 carries the quality
value 0 (the deformation norm of the base mesh, from the calibration
evaluation), while the structural-deformation norm at that iteration — on
iteration 0's candidate mesh — is 1, so the written quality field is not the
deformation norm at that iteration. -/
theorem C8_counterexample :
    runOk CwOff cfgSave 1 = true ∧
      ((stepEvents CwOff cfgSave 0).map fun e => e.quality 0) = [(0 : ℚ)] ∧
      CwOff.deformNorm (candAtIter CwOff cfgSave 0) 0 = 1 ∧ (0 : ℚ) ≠ 1 :=
  ⟨by decide, by decide, by decide, by decide⟩

/-- C8 (amended): every periodic checkpoint written at iteration k carries
the per-vertex deformation norms left by the most recent structural
evaluation before the checkpoint — the previous iteration's candidate mesh,
or the base mesh when k = 0 — not those of iteration k itself; and the final
best-mesh file carries the quality stored in the best-state snapshot. -/
theorem C8_quality_amended (C : Collab n m) (cfg : Config) (k : Nat)
    (h : runOk C cfg (k + 1) = true) : qualityProp C cfg k := by
  obtain ⟨hOk, hStep⟩ := runOk_succ_elim h
  obtain ⟨_, _, hshape, hevs⟩ := iterStep_ok_shape hStep
  refine ⟨?_, ?_, rfl, ?_⟩
  · intro e he
    rw [hevs] at he
    unfold ckptEvents at he
    by_cases hck : k % cfg.saveInterval = 0 ∧ cfg.save = true
    · rw [if_pos hck] at he
      simp only [List.mem_singleton] at he
      rw [he]
    · rw [if_neg hck] at he
      simp at he
  · rw [hshape, stepResult_lastDeform]
    rfl
  · intro e he
    unfold postEvents postLoop at he
    by_cases hc : cfg.save = true ∧ 0 < cfg.nIter
    · rw [if_pos hc] at he
      cases hbi : (stateAt C cfg cfg.nIter).bestIteration with
      | none =>
        rw [hbi] at he
        simp at he
      | some b =>
        rw [hbi] at he
        cases hbm : (stateAt C cfg cfg.nIter).bestMesh with
        | none =>
          rw [hbm] at he
          simp at he
        | some bm =>
          rw [hbm] at he
          cases hbq : (stateAt C cfg cfg.nIter).bestQuality with
          | none =>
            rw [hbq] at he
            simp at he
          | some bq =>
            rw [hbq] at he
            simp only [List.mem_singleton] at he
            simp [he, hbq]
    · rw [if_neg hc] at he
      simp at he

theorem C8_quality_amended_witness :
    runOk CwOff cfgSave 1 = true ∧ qualityProp CwOff cfgSave 0 :=
  ⟨by decide, C8_quality_amended CwOff cfgSave 0 (by decide)⟩

theorem runOk_succ_intro {C : Collab n m} {cfg : Config} {k : Nat}
    (hOk : runOk C cfg k = true)
    {st2 : DriverState n m} {evs2 : List (Event n)}
    (hstep : iterStep C cfg k (stateAt C cfg k) = Except.ok (st2, evs2)) :
    runOk C cfg (k + 1) = true ∧ stateAt C cfg (k + 1) = st2 := by
  unfold runOk at hOk
  cases hr : runIters C cfg k with
  | error e =>
    rw [hr] at hOk
    simp at hOk
  | ok p =>
    obtain ⟨st, evs⟩ := p
    have hst : stateAt C cfg k = st := by
      unfold stateAt
      rw [hr]
    rw [hst] at hstep
    have hall : runIters C cfg (k + 1) = Except.ok (st2, evs ++ evs2) := by
      simp only [runIters, hr, hstep]
    constructor
    · unfold runOk
      rw [hall]
    · unfold stateAt
      rw [hall]

/-- C9: if a wandb sink is provided and at least one of the three
regularizers is disabled, the first iteration raises an unbound-variable
error while writing the per-run summary, because the summary unconditionally
reads the at-best-iteration value of every regularizer. -/
theorem C9_wandb_unbound (C : Collab n m) (cfg : Config)
    (hn : 1 ≤ cfg.nIter) (hw : cfg.wandbOn = true)
    (hsi : cfg.saveInterval ≠ 0) (hdi : cfg.displayInterval ≠ 0)
    (hdis : cfg.withLap = false ∨ cfg.withNC = false ∨ cfg.withVar = false) :
    ∃ v, runIters C cfg 1 = Except.error (RunError.unboundLocal v) ∧
      runStart C cfg = Except.error (RunError.unboundLocal v) := by
  have key : ∃ v, iterStep C cfg 0 (initState C cfg) =
      Except.error (RunError.unboundLocal v) := by
    by_cases hb : fvLt (iterLoss C cfg (initState C cfg)) (initState C cfg).bestLoss = true
    · have hq : fvLt (iterLoss C cfg (initState C cfg)) (initState C cfg).bestLoss = true →
          cfg.save = true → ∃ qv, newQuality cfg 0 (initState C cfg) = some qv := by
        intro _ hs
        refine ⟨(initState C cfg).lastDeform, ?_⟩
        unfold newQuality
        rw [if_pos ⟨Nat.zero_mod _, hs⟩]
      by_cases hL : cfg.withLap = true
      · by_cases hN : cfg.withNC = true
        · have hV : cfg.withVar = false := by
            rcases hdis with hx | hx | hx
            · rw [hL] at hx
              exact absurd hx (by simp)
            · rw [hN] at hx
              exact absurd hx (by simp)
            · exact hx
          refine ⟨nmVarAtBest, iterStep_err_of_wandb hsi hdi hw hq ?_⟩
          rw [if_pos hb]
          simp [wandbCheck, bestUpdatedState, optOr, lapOf, ncOf, varOf, hL, hN, hV, initState]
        · have hN2 : cfg.withNC = false := Bool.eq_false_iff.mpr hN
          refine ⟨nmNCAtBest, iterStep_err_of_wandb hsi hdi hw hq ?_⟩
          rw [if_pos hb]
          by_cases hL2 : cfg.withLap = true
          · simp [wandbCheck, bestUpdatedState, optOr, lapOf, ncOf, hL2, hN2, initState]
          · exact absurd hL hL2
      · have hL2 : cfg.withLap = false := Bool.eq_false_iff.mpr hL
        refine ⟨nmLapAtBest, iterStep_err_of_wandb hsi hdi hw hq ?_⟩
        rw [if_pos hb]
        simp [wandbCheck, bestUpdatedState, optOr, lapOf, hL2, initState]
    · have hbf : fvLt (iterLoss C cfg (initState C cfg)) (initState C cfg).bestLoss = false :=
        Bool.eq_false_iff.mpr hb
      refine ⟨nmBestIteration, iterStep_err_of_wandb hsi hdi hw ?_ ?_⟩
      · intro hbt
        rw [hbt] at hbf
        exact absurd hbf (by simp)
      · rw [if_neg hb]
        rfl
  obtain ⟨v, hv⟩ := key
  have h1 : runIters C cfg 1 = Except.error (RunError.unboundLocal v) :=
    runIters_one_err hv
  have h2 : runIters C cfg cfg.nIter = Except.error (RunError.unboundLocal v) :=
    runIters_err_mono h1 hn
  exact ⟨v, h1, runStart_err_of_iters h2⟩

theorem C9_wandb_unbound_witness :
    ∃ v, runIters Cw cfgWandb 1 = Except.error (RunError.unboundLocal v) ∧
      runStart Cw cfgWandb = Except.error (RunError.unboundLocal v) :=
  C9_wandb_unbound Cw cfgWandb (by decide) rfl (by decide) (by decide) (Or.inl rfl)

/-- C10: if saving is enabled and n_iter > 0 but no iteration's objective is
ever strictly below the initial infinite best loss (for example because it
is NaN at every iteration), the post-loop best-mesh emission raises an
unbound-variable error on `best_iteration` instead of writing a best file or
skipping the emission. -/
theorem C10_best_unbound (C : Collab n m) (cfg : Config)
    (hs : cfg.save = true) (hn : 1 ≤ cfg.nIter) (hw : cfg.wandbOn = false)
    (hsi : cfg.saveInterval ≠ 0) (hdi : cfg.displayInterval ≠ 0)
    (hloss : ∀ j, j < cfg.nIter → fvLt (lossAtIter C cfg j) FV.inf = false) :
    runStart C cfg = Except.error (RunError.unboundLocal nmBestIteration) := by
  have inv : ∀ k, k ≤ cfg.nIter → runOk C cfg k = true ∧
      (stateAt C cfg k).bestLoss = FV.inf ∧ (stateAt C cfg k).bestIteration = none := by
    intro k
    induction k with
    | zero =>
      intro _
      exact ⟨rfl, rfl, rfl⟩
    | succ k ih =>
      intro hk
      obtain ⟨hOk, hBL, hBI⟩ := ih (Nat.le_of_succ_le hk)
      have hb : fvLt (iterLoss C cfg (stateAt C cfg k)) (stateAt C cfg k).bestLoss = false := by
        rw [hBL]
        exact hloss k (Nat.lt_of_succ_le hk)
      have hstep := iterStep_eval_noupdate (k := k) hsi hdi hw hb
      obtain ⟨hok1, hst1⟩ := runOk_succ_intro hOk hstep
      have hsnap : snapshotOf (stateAt C cfg (k + 1)) = snapshotOf (stateAt C cfg k) := by
        rw [hst1, stepResult_snapshot]
        simp [hb]
      have hfields := snapshot_fields hsnap
      exact ⟨hok1, hfields.1.trans hBL, hfields.2.1.trans hBI⟩
  obtain ⟨hOkN, hBLN, hBIN⟩ := inv cfg.nIter (Nat.le_refl _)
  unfold runOk at hOkN
  cases hr : runIters C cfg cfg.nIter with
  | error e =>
    rw [hr] at hOkN
    simp at hOkN
  | ok p =>
    obtain ⟨st, evs⟩ := p
    have hst : stateAt C cfg cfg.nIter = st := by
      unfold stateAt
      rw [hr]
    rw [hst] at hBIN
    exact runStart_err_of_post hr (postLoop_unbound hs hn hBIN)

theorem C10_best_unbound_witness :
    runStart CwNan cfgSave = Except.error (RunError.unboundLocal nmBestIteration) :=
  C10_best_unbound CwNan cfgSave rfl (by decide) rfl (by decide) (by decide)
    (fun j hj => by
      have hn1 : cfgSave.nIter = 1 := rfl
      rw [hn1] at hj
      have hj0 : j = 0 := by omega
      rw [hj0]
      decide)

end GridShell
